import Mathlib

/-
  Verification development for the physics core of the gengine repository
  (packages physics: box.go, movement.go, rigidbody, engine).

  Embedding conventions:
  * Go float32 arithmetic is modelled by exact rational arithmetic (ℚ).
    All decimal literals in the source (0.2, 0.001, 3.0, 12.0, ...) are
    taken at their exact rational value.
  * `v.Len() > c` comparisons with `c ≥ 0` are modelled by the equivalent
    `lenSq v > c^2` (both sides are non-negative, squaring is monotone),
    which keeps the development computable over ℚ; the movement controller,
    whose `Normalize` genuinely divides by a Euclidean length, is modelled
    separately over ℝ with `Real.sqrt`.
  * Go slices become Lean lists, `nil`-able pointers become `Option`,
    struct mutation becomes functional record update.
-/

namespace GEngine

/-- 3-component vector over ℚ, modelling mgl32.Vec3. -/
structure Vec3 where
  x : ℚ
  y : ℚ
  z : ℚ
deriving DecidableEq, Repr

def Vec3.zero : Vec3 := ⟨0, 0, 0⟩

/-- mgl32 componentwise vector addition. -/
def Vec3.Add (a b : Vec3) : Vec3 := ⟨a.x + b.x, a.y + b.y, a.z + b.z⟩

/-- mgl32 componentwise vector subtraction. -/
def Vec3.Sub (a b : Vec3) : Vec3 := ⟨a.x - b.x, a.y - b.y, a.z - b.z⟩

/-- mgl32 scalar multiplication `v.Mul(c)`. -/
def Vec3.Mul (a : Vec3) (c : ℚ) : Vec3 := ⟨a.x * c, a.y * c, a.z * c⟩

/-- Squared Euclidean length; stands in for `v.Len()` in comparisons
    (see the embedding conventions above). -/
def Vec3.lenSq (a : Vec3) : ℚ := a.x * a.x + a.y * a.y + a.z * a.z

/-- src/physics/box.go: axis-aligned bounding box. -/
structure Box where
  Min : Vec3
  Max : Vec3
deriving DecidableEq, Repr

/-- box.go `minf`. -/
def minf (a b : ℚ) : ℚ := if a < b then a else b

/-- box.go `maxf`. -/
def maxf (a b : ℚ) : ℚ := if a > b then a else b

/-- box.go `signF`: sign as a multiplier (returns 1 at 0). -/
def signF (x : ℚ) : ℚ := if x < 0 then -1 else 1

/-- The separation test of box.go `Intersection` (lines 134-136): some axis
    strictly separates the two boxes. -/
def Box.separated (b other : Box) : Prop :=
  b.Max.x < other.Min.x ∨ b.Min.x > other.Max.x ∨
  b.Max.y < other.Min.y ∨ b.Min.y > other.Max.y ∨
  b.Max.z < other.Min.z ∨ b.Min.z > other.Max.z

instance (b other : Box) : Decidable (Box.separated b other) := by
  unfold Box.separated; infer_instance

/-- box.go `Intersection` (lines 132-166): full 3-axis intersection with
    minimum-penetration vector. -/
def Box.Intersection (b other : Box) : Bool × Vec3 :=
  if Box.separated b other then
    (false, Vec3.zero)
  else
    let dx1 := other.Max.x - b.Min.x
    let dx2 := b.Max.x - other.Min.x
    let dx := minf dx1 dx2
    let dy1 := other.Max.y - b.Min.y
    let dy2 := b.Max.y - other.Min.y
    let dy := minf dy1 dy2
    let dz1 := other.Max.z - b.Min.z
    let dz2 := b.Max.z - other.Min.z
    let dz := minf dz1 dz2
    let penetration : Vec3 :=
      if dx < dy ∧ dx < dz then
        ⟨dx * signF (dx1 - dx2), 0, 0⟩
      else if dy < dx ∧ dy < dz then
        ⟨0, dy * signF (dy1 - dy2), 0⟩
      else
        ⟨0, 0, dz * signF (dz1 - dz2)⟩
    (true, penetration)

/-- box.go `IntersectionY` (lines 112-129): X/Z overlap precondition, then
    the unsigned minimal Y overlap. -/
def Box.IntersectionY (b other : Box) : Bool × ℚ :=
  if b.Max.x < other.Min.x ∨ b.Min.x > other.Max.x ∨
     b.Max.z < other.Min.z ∨ b.Min.z > other.Max.z then
    (false, 0)
  else if b.Min.y > other.Max.y ∨ b.Max.y < other.Min.y then
    (false, 0)
  else
    (true, minf (other.Max.y - b.Min.y) (b.Max.y - other.Min.y))

/-- The penetration depths on the three axes, as computed inside
    box.go `Intersection` for overlapping boxes. -/
def depthX (b other : Box) : ℚ := minf (other.Max.x - b.Min.x) (b.Max.x - other.Min.x)

def depthY (b other : Box) : ℚ := minf (other.Max.y - b.Min.y) (b.Max.y - other.Min.y)

def depthZ (b other : Box) : ℚ := minf (other.Max.z - b.Min.z) (b.Max.z - other.Min.z)


/-! ### Rigid body (src/unnamed/part_000) -/

/-- Physics constants of the rigid-body module (part_000 lines 7-17),
    at their exact rational values. -/
def DefaultJumpSpeed : ℚ := 3

def DefaultGravity : ℚ := 12

def DefaultPenetrationEpsilonSmall : ℚ := 1 / 10

def DefaultPenetrationEpsilonBig : ℚ := 1

def DefaultAirMovementSuppression : ℚ := 7 / 10

def DefaultFlyingSpeedMultipier : ℚ := 2

def DefaultPositionHistoryLength : ℤ := 20

def DefaultTerminalVelocity : ℚ := -10

/-- part_000 `RigidBody`.  The `OnPositionUpdated` callback (an imperative
    notification hook) and `TripDistance` (an accumulator of floating-point
    Euclidean lengths, untouched by every claim) are not modelled. -/
structure RigidBody where
  Collider : Option Box
  PositionHistory : List Vec3
  Position : Vec3
  Velocity : Vec3
  Force : Vec3
  Mass : ℚ
  Width : ℚ
  Height : ℚ
  Flying : Bool
  Grounded : Bool
  JumpSpeed : ℚ
  Gravity : ℚ
  PenetrationEpsilonSmall : ℚ
  PenetrationEpsilonBig : ℚ
  AirMovementSuppression : ℚ
  FlyingSpeedMultipier : ℚ
  PositionHistoryLength : ℤ
deriving DecidableEq, Repr

/-- part_000 `NewRigidBody`. -/
def NewRigidBody (position : Vec3) (mass width height : ℚ) : RigidBody where
  Collider := none
  PositionHistory := []
  Position := position
  Velocity := Vec3.zero
  Force := Vec3.zero
  Mass := mass
  Width := width
  Height := height
  Flying := false
  Grounded := false
  JumpSpeed := DefaultJumpSpeed
  Gravity := DefaultGravity
  PenetrationEpsilonSmall := DefaultPenetrationEpsilonSmall
  PenetrationEpsilonBig := DefaultPenetrationEpsilonBig
  AirMovementSuppression := DefaultAirMovementSuppression
  FlyingSpeedMultipier := DefaultFlyingSpeedMultipier
  PositionHistoryLength := DefaultPositionHistoryLength

/-- The collider box that `UpdateCollider`/`UpdateColliderAtPosition`
    (part_000 lines 68-73 and 207-212) derive from a position:
    `[pos - (w/2, h, w/2), pos + (w/2, 0, w/2)]`. -/
def colliderAt (width height : ℚ) (pos : Vec3) : Box :=
  ⟨pos.Sub ⟨width / 2, height, width / 2⟩, pos.Add ⟨width / 2, 0, width / 2⟩⟩

/-- part_000 `UpdateCollider`. -/
def RigidBody.UpdateCollider (r : RigidBody) : RigidBody :=
  { r with Collider := some (colliderAt r.Width r.Height r.Position) }

/-- part_000 `UpdateColliderAtPosition`. -/
def RigidBody.UpdateColliderAtPosition (r : RigidBody) (pos : Vec3) : RigidBody :=
  { r with Collider := some (colliderAt r.Width r.Height pos) }

/-- The wall loop of part_000 `Move` (lines 138-144 and 172-179): does the
    given collider intersect some wall (3-axis test)?  The Go loop breaks at
    the first hit, which is observationally `List.any`. -/
def anyWallHit (c : Box) (walls : List Box) : Bool :=
  walls.any fun wall => (Box.Intersection c wall).1

/-- The vertical sub-step count of part_000 `Move` line 129:
    `int(abs(dy)*5.0) + 1`; Go `int(...)` truncates toward zero, which on the
    non-negative value `|dy|*5` is the floor. -/
def verticalSteps (dy : ℚ) : ℕ :=
  (⌊|dy| * 5⌋).toNat + 1

/-- The vertical sub-step count as the spec's words describe it
    (`ceil(|dy| * 5)` steps, minimum 1).  Used only to compare the claim
    against the source formula `verticalSteps`. -/
def specVerticalSteps (dy : ℚ) : ℕ :=
  max 1 (⌈|dy| * 5⌉).toNat

/-- The vertical sweep loop of part_000 `Move` lines 132-157: at each step
    tentatively move, rebuild the collider there, test all walls; commit on
    no collision, otherwise mark grounded when falling, zero the vertical
    velocity, and stop. -/
def vertLoop (stepMove : Vec3) (walls : List Box) : ℕ → RigidBody → RigidBody
  | 0, r => r
  | n + 1, r =>
    let tempPos := r.Position.Add stepMove
    let c := colliderAt r.Width r.Height tempPos
    let r1 := { r with Collider := some c }
    if anyWallHit c walls then
      let r2 := if r1.Velocity.y < (0 : ℚ) then { r1 with Grounded := true } else r1
      { r2 with Velocity := ⟨r2.Velocity.x, 0, r2.Velocity.z⟩ }
    else
      vertLoop stepMove walls n { r1 with Position := tempPos }

/-- The horizontal sweep loop of part_000 `Move` lines 167-187: tentative
    move, rebuild collider, test all walls; commit on no collision, stop
    permanently on the first collision. -/
def horizLoop (stepMove : Vec3) (walls : List Box) : ℕ → RigidBody → RigidBody
  | 0, r => r
  | n + 1, r =>
    let tempPos := r.Position.Add stepMove
    let c := colliderAt r.Width r.Height tempPos
    let r1 := { r with Collider := some c }
    if anyWallHit c walls then
      r1
    else
      horizLoop stepMove walls n { r1 with Position := tempPos }

/-- Ground handling of part_000 `Move` lines 78-103: when a ground box is
    supplied, zero the vertical velocity on the transition into grounded,
    mark grounded, and snap up by `depth + 0.2` when the ground/collider
    Y intersection is deeper than 0.001; otherwise mark airborne. -/
def groundPhase (r : RigidBody) (ground : Option Box) : RigidBody :=
  match ground with
  | some g =>
    let r1 := if !r.Grounded then
        { r with Velocity := ⟨r.Velocity.x, 0, r.Velocity.z⟩ }
      else r
    let r2 := { r1 with Grounded := true }
    match r2.Collider with
    | some c =>
      let res := Box.IntersectionY g c
      if res.1 = true ∧ res.2 > 1 / 1000 then
        RigidBody.UpdateCollider
          { r2 with Position := r2.Position.Add ⟨0, res.2 + 1 / 5, 0⟩ }
      else r2
    | none => r2
  | none => { r with Grounded := false }

/-- The stepped wall sweep of part_000 `Move` lines 116-191 (collider present
    and walls supplied): velocity-scaled vertical sub-steps, then 4 fixed
    horizontal sub-steps, then a final collider rebuild. -/
def wallsPhase (r : RigidBody) (movement : Vec3) (walls : List Box) : RigidBody :=
  let verticalMove : Vec3 :=
    if !r.Flying ∧ !r.Grounded then ⟨0, r.Velocity.y, 0⟩
    else if r.Flying then ⟨0, movement.y, 0⟩
    else ⟨0, 0, 0⟩
  -- `verticalMove.Len() > 0` is modelled as `lenSq > 0`
  let rv :=
    if verticalMove.lenSq > 0 then
      let steps := verticalSteps verticalMove.y
      vertLoop (verticalMove.Mul (1 / (steps : ℚ))) walls steps r
    else r
  let horizMove : Vec3 := ⟨movement.x, 0, movement.z⟩
  -- `horizMove.Len() > 0.001` is modelled as `lenSq > 0.001^2`
  let rh :=
    if horizMove.lenSq > 1 / 1000000 then
      horizLoop (horizMove.Mul (1 / 4)) walls 4 rv
    else rv
  rh.UpdateCollider

/-- The unstepped fallback of part_000 `Move` lines 192-203 (no walls or no
    collider): apply movement directly, add vertical velocity unless flying,
    rebuild the collider. -/
def noWallsPhase (r : RigidBody) (movement : Vec3) : RigidBody :=
  let r1 := { r with Position := r.Position.Add movement }
  let r2 := if !r1.Flying then
      { r1 with Position := r1.Position.Add ⟨0, r1.Velocity.y, 0⟩ }
    else r1
  r2.UpdateCollider

/-- part_000 `Move` (lines 77-204).  The `ceiling` parameter is accepted and
    never used, exactly as in the source. -/
def RigidBody.Move (r : RigidBody) (movement : Vec3) (ground : Option Box)
    (ceiling : Option Box) (walls : List Box) : RigidBody :=
  let r1 := groundPhase r ground
  let m1 := if !r1.Grounded ∧ !r1.Flying then movement.Mul r1.AirMovementSuppression
    else movement
  let m2 := if r1.Flying then m1.Mul r1.FlyingSpeedMultipier else m1
  if r1.Collider.isSome ∧ walls ≠ [] then
    wallsPhase r1 m2 walls
  else
    noWallsPhase r1 m2

/-- part_000 `Jump` (lines 215-220). -/
def RigidBody.Jump (r : RigidBody) : RigidBody :=
  if r.Grounded then
    { r with Velocity := ⟨r.Velocity.x, r.JumpSpeed, r.Velocity.z⟩, Grounded := false }
  else r

/-- part_000 `AppendHistory` (lines 223-231): prepend the current position,
    then drop the last entry when the length exceeds the cap.  (The `nil`
    slice re-initialization is a no-op under the list model.) -/
def RigidBody.AppendHistory (r : RigidBody) : RigidBody :=
  let hist := r.Position :: r.PositionHistory
  if (hist.length : ℤ) > r.PositionHistoryLength then
    { r with PositionHistory := hist.dropLast }
  else
    { r with PositionHistory := hist }

/-! ### Physics engine (src/unnamed/part_001) -/

/-- part_001 `PhysicsEngine.update` (lines 42-91): gravity when airborne and
    not flying, force integration, terminal-velocity clamp, grounded clamp,
    history append, position integration, collider rebuild, force reset.
    The registry iteration of `Tick` applies this per body; the
    `TripDistance` bookkeeping of lines 82-87 is not modelled (see
    `RigidBody`). -/
def PhysicsEngine.update (body : RigidBody) (delta : ℚ) : RigidBody :=
  let b1 := if !body.Grounded ∧ !body.Flying then
      { body with Force := body.Force.Add ⟨0, body.Mass * (-body.Gravity), 0⟩ }
    else body
  let acc := b1.Force.Mul (1 / b1.Mass)
  let b2 := { b1 with Velocity := b1.Velocity.Add (acc.Mul delta) }
  let b3 := if b2.Velocity.y < DefaultTerminalVelocity then
      { b2 with Velocity := ⟨b2.Velocity.x, DefaultTerminalVelocity, b2.Velocity.z⟩ }
    else b2
  let b4 := if b3.Grounded ∧ b3.Velocity.y < (0 : ℚ) then
      { b3 with Velocity := ⟨b3.Velocity.x, 0, b3.Velocity.z⟩ }
    else b3
  let dpos := b4.Velocity.Mul delta
  let b5 := b4.AppendHistory
  let b6 := { b5 with Position := b5.Position.Add dpos }
  let b7 := b6.UpdateCollider
  { b7 with Force := Vec3.zero }

/-! ### Movement controller (src/physics/movement.go)

The controller's `Move` renormalizes by a genuine Euclidean length, so this
one component is modelled over ℝ with `Real.sqrt` instead of ℚ. -/

/-- 3-component vector over ℝ for the movement controller. -/
structure Vec3R where
  x : ℝ
  y : ℝ
  z : ℝ

def Vec3R.zero : Vec3R := ⟨0, 0, 0⟩

noncomputable instance : DecidableEq Vec3R := Classical.decEq Vec3R

def Vec3R.Add (a b : Vec3R) : Vec3R := ⟨a.x + b.x, a.y + b.y, a.z + b.z⟩

def Vec3R.Mul (a : Vec3R) (c : ℝ) : Vec3R := ⟨a.x * c, a.y * c, a.z * c⟩

/-- mgl32 `Len`: Euclidean norm. -/
noncomputable def Vec3R.Len (a : Vec3R) : ℝ :=
  Real.sqrt (a.x * a.x + a.y * a.y + a.z * a.z)

/-- mgl32 `Normalize`: `v.Mul(1 / v.Len())`. -/
noncomputable def Vec3R.Normalize (a : Vec3R) : Vec3R :=
  a.Mul (1 / a.Len)

/-- movement.go `MovementController`.  The `Body` pointer is not used by
    `Move` (only by `Jump`/`Update`/accessors) and is not modelled. -/
structure MovementController where
  Speed : ℝ
  JumpForce : ℝ
  Flying : Bool

/-- movement.go `Move` (lines 26-53): flatten the view and right vectors to
    the horizontal plane (normalizing non-zero ones), combine
    `forward*flatView + right*flatRight`, add vertical input only when
    flying, and — when the combined vector is non-zero — renormalize and
    scale by `Speed`. -/
noncomputable def MovementController.Move (m : MovementController)
    (forward right up : ℝ) (viewVector rightVector : Vec3R) : Vec3R :=
  let flatView : Vec3R := ⟨viewVector.x, 0, viewVector.z⟩
  let flatView := if flatView.Len > 0 then flatView.Normalize else flatView
  let flatRight : Vec3R := ⟨rightVector.x, 0, rightVector.z⟩
  let flatRight := if flatRight.Len > 0 then flatRight.Normalize else flatRight
  let movement := (flatView.Mul forward).Add (flatRight.Mul right)
  let movement := if m.Flying then movement.Add ⟨0, up, 0⟩ else movement
  if movement.Len > 0 then movement.Normalize.Mul m.Speed else movement

/-! ### Claims and supporting lemmas -/

lemma minf_eq_min (a b : ℚ) : minf a b = min a b := by
  unfold minf
  rcases lt_trichotomy a b with h | h | h
  · rw [if_pos h, min_eq_left h.le]
  · rw [if_neg (by rw [h]; exact lt_irrefl b), h, min_self]
  · rw [if_neg (not_lt.mpr h.le), min_eq_right h.le]

lemma signF_abs (x : ℚ) : |signF x| = 1 := by
  unfold signF
  split <;> simp

lemma separated_symm (b other : Box) :
    Box.separated b other ↔ Box.separated other b := by
  unfold Box.separated
  constructor <;> (intro h; simp only [gt_iff_lt] at h ⊢; tauto)

/-- Characterization of `Intersection` on non-separated boxes: it returns
    `true` together with the penetration vector computed from the three
    per-axis depths. -/
lemma Intersection_of_not_separated (b other : Box) (hs : ¬ Box.separated b other) :
    Box.Intersection b other =
      (true,
        if depthX b other < depthY b other ∧ depthX b other < depthZ b other then
          ⟨depthX b other * signF ((other.Max.x - b.Min.x) - (b.Max.x - other.Min.x)), 0, 0⟩
        else if depthY b other < depthX b other ∧ depthY b other < depthZ b other then
          ⟨0, depthY b other * signF ((other.Max.y - b.Min.y) - (b.Max.y - other.Min.y)), 0⟩
        else
          ⟨0, 0, depthZ b other * signF ((other.Max.z - b.Min.z) - (b.Max.z - other.Min.z))⟩) := by
  rw [Box.Intersection, if_neg hs]
  rfl

lemma depthX_nonneg (b other : Box) (hs : ¬ Box.separated b other) :
    0 ≤ depthX b other := by
  unfold Box.separated at hs
  push_neg at hs
  rw [depthX, minf_eq_min, le_min_iff]
  constructor <;> [linarith [hs.2.1]; linarith [hs.1]]

lemma depthY_nonneg (b other : Box) (hs : ¬ Box.separated b other) :
    0 ≤ depthY b other := by
  unfold Box.separated at hs
  push_neg at hs
  rw [depthY, minf_eq_min, le_min_iff]
  constructor <;> [linarith [hs.2.2.2.1]; linarith [hs.2.2.1]]

lemma depthZ_nonneg (b other : Box) (hs : ¬ Box.separated b other) :
    0 ≤ depthZ b other := by
  unfold Box.separated at hs
  push_neg at hs
  rw [depthZ, minf_eq_min, le_min_iff]
  constructor <;> [linarith [hs.2.2.2.2.2]; linarith [hs.2.2.2.2.1]]

/-- C7: the boolean result of `Intersection` is symmetric in the two call
    orders (the penetration vectors may differ). -/
theorem spec_C7 (b other : Box) :
    (Box.Intersection b other).1 = (Box.Intersection other b).1 := by
  unfold Box.Intersection
  by_cases h : Box.separated b other
  · rw [if_pos h, if_pos ((separated_symm b other).mp h)]
  · rw [if_neg h, if_neg (fun hc => h ((separated_symm b other).mpr hc))]

/-- C6: `Intersection` returns `(false, zero)` exactly on strict separation;
    boxes that merely touch (`Max` equal to `Min` on an axis, without strict
    separation anywhere) count as overlapping, with zero penetration depth
    reported on the touching axis. -/
theorem spec_C6 (b other : Box) :
    (Box.Intersection b other = (false, Vec3.zero) ↔ Box.separated b other) ∧
    (¬ Box.separated b other →
      (b.Max.x = other.Min.x ∨ b.Min.x = other.Max.x →
        (Box.Intersection b other).1 = true ∧ (Box.Intersection b other).2.x = 0) ∧
      (b.Max.y = other.Min.y ∨ b.Min.y = other.Max.y →
        (Box.Intersection b other).1 = true ∧ (Box.Intersection b other).2.y = 0) ∧
      (b.Max.z = other.Min.z ∨ b.Min.z = other.Max.z →
        (Box.Intersection b other).1 = true ∧ (Box.Intersection b other).2.z = 0)) := by
  constructor
  · constructor
    · intro h
      by_contra hs
      rw [Intersection_of_not_separated b other hs] at h
      simp at h
    · intro hs
      rw [Box.Intersection, if_pos hs]
  · intro hs
    have hsep := hs
    unfold Box.separated at hsep
    push_neg at hsep
    rw [Intersection_of_not_separated b other hs]
    refine ⟨fun hx => ?_, fun hy => ?_, fun hz => ?_⟩
    · have hdx : depthX b other = 0 := by
        rw [depthX, minf_eq_min]
        rcases hx with h | h
        · have h2 : b.Max.x - other.Min.x = 0 := by rw [h]; ring
          rw [h2, min_eq_right (by linarith [hsep.2.1])]
        · have : other.Max.x - b.Min.x = 0 := by rw [← h]; ring
          rw [this, min_eq_left (by linarith [hsep.2.1])]
      refine ⟨rfl, ?_⟩
      split
      · simp [hdx]
      · split <;> simp
    · have hdy : depthY b other = 0 := by
        rw [depthY, minf_eq_min]
        rcases hy with h | h
        · have : b.Max.y - other.Min.y = 0 := by rw [h]; ring
          rw [this, min_eq_right (by linarith [hsep.2.2.1])]
        · have : other.Max.y - b.Min.y = 0 := by rw [← h]; ring
          rw [this, min_eq_left (by linarith [hsep.2.2.2.1])]
      refine ⟨rfl, ?_⟩
      split
      · simp
      · split
        · simp [hdy]
        · simp
    · have hdz : depthZ b other = 0 := by
        rw [depthZ, minf_eq_min]
        rcases hz with h | h
        · have : b.Max.z - other.Min.z = 0 := by rw [h]; ring
          rw [this, min_eq_right (by linarith [hsep.2.2.2.2.1])]
        · have : other.Max.z - b.Min.z = 0 := by rw [← h]; ring
          rw [this, min_eq_left (by linarith [hsep.2.2.2.2.2])]
      refine ⟨rfl, ?_⟩
      split
      · simp
      · split
        · simp
        · simp [hdz]

/-- C6 witness: two boxes touching exactly on the X axis overlap with zero
    X penetration. -/
theorem spec_C6_witness :
    (Box.Intersection ⟨⟨0, 0, 0⟩, ⟨1, 1, 1⟩⟩ ⟨⟨1, 0, 0⟩, ⟨2, 1, 1⟩⟩).1 = true ∧
    (Box.Intersection ⟨⟨0, 0, 0⟩, ⟨1, 1, 1⟩⟩ ⟨⟨1, 0, 0⟩, ⟨2, 1, 1⟩⟩).2.x = 0 :=
  ((spec_C6 ⟨⟨0, 0, 0⟩, ⟨1, 1, 1⟩⟩ ⟨⟨1, 0, 0⟩, ⟨2, 1, 1⟩⟩).2 (by decide)).1 (by decide)

/-- C1 (amended): for overlapping boxes, `Intersection` resolves along X only
    when the X depth is strictly smaller than both the Y and the Z depth, and
    along Y only when the Y depth is strictly smaller than both the X and the
    Z depth; in every other case — exact ties for the minimum included — it
    resolves along Z (whose depth then need not be minimal). The chosen
    axis carries the corresponding per-axis depth as the magnitude of the
    only non-zero component. -/
theorem spec_C1 (b other : Box) (hs : ¬ Box.separated b other) :
    (depthX b other < depthY b other ∧ depthX b other < depthZ b other →
       (Box.Intersection b other).2.y = 0 ∧ (Box.Intersection b other).2.z = 0 ∧
       |(Box.Intersection b other).2.x| = depthX b other) ∧
    (depthY b other < depthX b other ∧ depthY b other < depthZ b other →
       (Box.Intersection b other).2.x = 0 ∧ (Box.Intersection b other).2.z = 0 ∧
       |(Box.Intersection b other).2.y| = depthY b other) ∧
    (¬ (depthX b other < depthY b other ∧ depthX b other < depthZ b other) →
     ¬ (depthY b other < depthX b other ∧ depthY b other < depthZ b other) →
       (Box.Intersection b other).2.x = 0 ∧ (Box.Intersection b other).2.y = 0 ∧
       |(Box.Intersection b other).2.z| = depthZ b other) := by
  rw [Intersection_of_not_separated b other hs]
  refine ⟨fun hA => ?_, fun hB => ?_, fun hA hB => ?_⟩
  · rw [if_pos hA]
    refine ⟨rfl, rfl, ?_⟩
    rw [abs_mul, signF_abs, mul_one, abs_of_nonneg (depthX_nonneg b other hs)]
  · have hA : ¬ (depthX b other < depthY b other ∧ depthX b other < depthZ b other) :=
      fun h => absurd hB.1 (not_lt.mpr h.1.le)
    rw [if_neg hA, if_pos hB]
    refine ⟨rfl, rfl, ?_⟩
    rw [abs_mul, signF_abs, mul_one, abs_of_nonneg (depthY_nonneg b other hs)]
  · rw [if_neg hA, if_neg hB]
    refine ⟨rfl, rfl, ?_⟩
    rw [abs_mul, signF_abs, mul_one, abs_of_nonneg (depthZ_nonneg b other hs)]

/-- C1 witness: a concrete overlapping pair whose X depth is the strict
    minimum resolves along the X axis with that depth. -/
theorem spec_C1_witness :
    (Box.Intersection ⟨⟨0, 0, 0⟩, ⟨2, 4, 4⟩⟩ ⟨⟨1, 1, 1⟩, ⟨5, 5, 5⟩⟩).2.y = 0 ∧
    (Box.Intersection ⟨⟨0, 0, 0⟩, ⟨2, 4, 4⟩⟩ ⟨⟨1, 1, 1⟩, ⟨5, 5, 5⟩⟩).2.z = 0 ∧
    |(Box.Intersection ⟨⟨0, 0, 0⟩, ⟨2, 4, 4⟩⟩ ⟨⟨1, 1, 1⟩, ⟨5, 5, 5⟩⟩).2.x| =
      depthX ⟨⟨0, 0, 0⟩, ⟨2, 4, 4⟩⟩ ⟨⟨1, 1, 1⟩, ⟨5, 5, 5⟩⟩ :=
  (spec_C1 ⟨⟨0, 0, 0⟩, ⟨2, 4, 4⟩⟩ ⟨⟨1, 1, 1⟩, ⟨5, 5, 5⟩⟩
      (by norm_num [Box.separated])).1
    (by norm_num [depthX, depthY, depthZ, minf])

/-- C1 counterexample: boxes whose X and Y depths are exactly equal and both
    strictly smaller than the Z depth resolve along the Z axis (with the
    non-minimal Z depth), not along X as the claim states. -/
theorem spec_C1_counterexample :
    depthX ⟨⟨0, 0, 0⟩, ⟨2, 2, 4⟩⟩ ⟨⟨1, 1, 1⟩, ⟨3, 3, 5⟩⟩ =
      depthY ⟨⟨0, 0, 0⟩, ⟨2, 2, 4⟩⟩ ⟨⟨1, 1, 1⟩, ⟨3, 3, 5⟩⟩ ∧
    depthX ⟨⟨0, 0, 0⟩, ⟨2, 2, 4⟩⟩ ⟨⟨1, 1, 1⟩, ⟨3, 3, 5⟩⟩ <
      depthZ ⟨⟨0, 0, 0⟩, ⟨2, 2, 4⟩⟩ ⟨⟨1, 1, 1⟩, ⟨3, 3, 5⟩⟩ ∧
    (Box.Intersection ⟨⟨0, 0, 0⟩, ⟨2, 2, 4⟩⟩ ⟨⟨1, 1, 1⟩, ⟨3, 3, 5⟩⟩).1 = true ∧
    (Box.Intersection ⟨⟨0, 0, 0⟩, ⟨2, 2, 4⟩⟩ ⟨⟨1, 1, 1⟩, ⟨3, 3, 5⟩⟩).2.x = 0 ∧
    (Box.Intersection ⟨⟨0, 0, 0⟩, ⟨2, 2, 4⟩⟩ ⟨⟨1, 1, 1⟩, ⟨3, 3, 5⟩⟩).2.z = 3 := by
  norm_num [Box.Intersection, Box.separated, depthX, depthY, depthZ, minf, signF]
/-- C5: the per-body engine update never leaves a grounded body with
    negative vertical velocity: `update` keeps the grounded flag, zeroes a
    grounded body's negative vertical velocity after integration, resets the
    force accumulator, and applied again to a grounded body with zero
    vertical velocity (and the force accumulator it just reset) keeps the
    vertical velocity at zero. -/
theorem spec_C5 (body : RigidBody) (delta : ℚ) (hm : 0 < body.Mass) :
    ((PhysicsEngine.update body delta).Grounded = body.Grounded) ∧
    ((PhysicsEngine.update body delta).Grounded = true →
      0 ≤ (PhysicsEngine.update body delta).Velocity.y) ∧
    ((PhysicsEngine.update body delta).Force = Vec3.zero) ∧
    (body.Grounded = true → body.Velocity.y = 0 → body.Force = Vec3.zero →
      (PhysicsEngine.update body delta).Velocity.y = 0) := by
  unfold PhysicsEngine.update RigidBody.AppendHistory RigidBody.UpdateCollider
  dsimp only
  simp only [apply_ite RigidBody.Grounded, apply_ite RigidBody.Velocity,
    apply_ite RigidBody.Force, apply_ite Vec3.y]
  refine ⟨?_, ?_, ?_, ?_⟩
  · split_ifs <;> rfl
  · split_ifs <;> intro hg <;> simp_all
  · trivial
  · intro hg hv hf
    simp_all [Vec3.Mul, Vec3.Add, Vec3.zero, DefaultTerminalVelocity]

/-- C5 witness: a concrete grounded body with zero vertical velocity and an
    empty force accumulator keeps a non-negative (indeed zero) vertical
    velocity through `update`. -/
theorem spec_C5_witness :
    ((PhysicsEngine.update
        ⟨none, [], ⟨0, 0, 0⟩, ⟨0, 0, 0⟩, ⟨0, 0, 0⟩, 1, 1, 2, false, true,
          3, 12, 1 / 10, 1, 7 / 10, 2, 20⟩ 1).Grounded = true →
      0 ≤ (PhysicsEngine.update
        ⟨none, [], ⟨0, 0, 0⟩, ⟨0, 0, 0⟩, ⟨0, 0, 0⟩, 1, 1, 2, false, true,
          3, 12, 1 / 10, 1, 7 / 10, 2, 20⟩ 1).Velocity.y) ∧
    (PhysicsEngine.update
        ⟨none, [], ⟨0, 0, 0⟩, ⟨0, 0, 0⟩, ⟨0, 0, 0⟩, 1, 1, 2, false, true,
          3, 12, 1 / 10, 1, 7 / 10, 2, 20⟩ 1).Velocity.y = 0 :=
  ⟨(spec_C5 ⟨none, [], ⟨0, 0, 0⟩, ⟨0, 0, 0⟩, ⟨0, 0, 0⟩, 1, 1, 2, false, true,
      3, 12, 1 / 10, 1, 7 / 10, 2, 20⟩ 1 (by norm_num)).2.1,
   (spec_C5 ⟨none, [], ⟨0, 0, 0⟩, ⟨0, 0, 0⟩, ⟨0, 0, 0⟩, 1, 1, 2, false, true,
      3, 12, 1 / 10, 1, 7 / 10, 2, 20⟩ 1 (by norm_num)).2.2.2 rfl rfl rfl⟩

lemma AppendHistory_Position (r : RigidBody) :
    r.AppendHistory.Position = r.Position := by
  unfold RigidBody.AppendHistory
  dsimp only
  split <;> rfl

lemma AppendHistory_cap (r : RigidBody) :
    r.AppendHistory.PositionHistoryLength = r.PositionHistoryLength := by
  unfold RigidBody.AppendHistory
  dsimp only
  split <;> rfl

lemma AppendHistory_length (r : RigidBody)
    (hlen : (r.PositionHistory.length : ℤ) ≤ r.PositionHistoryLength) :
    (r.AppendHistory.PositionHistory.length : ℤ) =
      min ((r.PositionHistory.length : ℤ) + 1) r.PositionHistoryLength := by
  unfold RigidBody.AppendHistory
  dsimp only
  split
  · rename_i h
    simp only [List.length_cons, Nat.cast_add, Nat.cast_one] at h ⊢
    rw [List.length_dropLast]
    simp only [List.length_cons]
    push_cast
    omega
  · rename_i h
    simp only [List.length_cons, Nat.cast_add, Nat.cast_one, not_lt] at h ⊢
    omega

lemma AppendHistory_head (r : RigidBody) (hcap : 1 ≤ r.PositionHistoryLength) :
    r.AppendHistory.PositionHistory.head? = some r.Position := by
  unfold RigidBody.AppendHistory
  dsimp only
  split
  · rename_i h
    cases hh : r.PositionHistory with
    | nil =>
      exfalso
      rw [hh] at h
      simp at h
      omega
    | cons a l =>
      simp [List.dropLast]
  · simp

lemma iterate_AppendHistory_Position (N : ℕ) (r : RigidBody) :
    (RigidBody.AppendHistory^[N] r).Position = r.Position := by
  induction N generalizing r with
  | zero => rfl
  | succ n ih =>
    rw [Function.iterate_succ_apply]
    rw [ih, AppendHistory_Position]

lemma iterate_AppendHistory_cap (N : ℕ) (r : RigidBody) :
    (RigidBody.AppendHistory^[N] r).PositionHistoryLength = r.PositionHistoryLength := by
  induction N generalizing r with
  | zero => rfl
  | succ n ih =>
    rw [Function.iterate_succ_apply]
    rw [ih, AppendHistory_cap]

lemma iterate_AppendHistory_length (N : ℕ) :
    ∀ r : RigidBody, 1 ≤ r.PositionHistoryLength →
      (r.PositionHistory.length : ℤ) ≤ r.PositionHistoryLength →
      r.PositionHistoryLength ≤ (r.PositionHistory.length : ℤ) + N →
      ((RigidBody.AppendHistory^[N] r).PositionHistory.length : ℤ) =
        r.PositionHistoryLength := by
  induction N with
  | zero =>
    intro r _ h2 h3
    simp only [Function.iterate_zero_apply]
    push_cast at h3
    omega
  | succ n ih =>
    intro r h1 h2 h3
    rw [Function.iterate_succ_apply]
    have hcap' := AppendHistory_cap r
    have hl := AppendHistory_length r h2
    rw [ih r.AppendHistory (by rw [hcap']; exact h1)
        (by rw [hcap', hl]; omega)
        (by rw [hcap', hl]; push_cast at h3 ⊢; omega), hcap']

/-- C9: `AppendHistory` prepends the current position and truncates the tail
    beyond the cap, so from any history not exceeding a cap of at least 1,
    more than cap-many calls leave exactly cap-many entries with the most
    recent position at index 0. -/
theorem spec_C9 (r : RigidBody) (N : ℕ)
    (hcap : 1 ≤ r.PositionHistoryLength)
    (hlen : (r.PositionHistory.length : ℤ) ≤ r.PositionHistoryLength)
    (hN : r.PositionHistoryLength < (N : ℤ)) :
    ((RigidBody.AppendHistory^[N] r).PositionHistory.length : ℤ) =
      r.PositionHistoryLength ∧
    (RigidBody.AppendHistory^[N] r).PositionHistory.head? = some r.Position := by
  constructor
  · exact iterate_AppendHistory_length N r hcap hlen (by push_cast; omega)
  · obtain ⟨M, rfl⟩ : ∃ M, N = M + 1 := ⟨N - 1, by omega⟩
    rw [Function.iterate_succ_apply']
    rw [AppendHistory_head _ (by rw [iterate_AppendHistory_cap]; exact hcap)]
    rw [iterate_AppendHistory_Position]

/-- C9 witness: starting from an empty history with cap 2, three calls leave
    length 2 with the current position first. -/
theorem spec_C9_witness :
    ((RigidBody.AppendHistory^[3]
        ⟨none, [], ⟨1, 2, 3⟩, ⟨0, 0, 0⟩, ⟨0, 0, 0⟩, 1, 1, 2, false, false,
          3, 12, 1 / 10, 1, 7 / 10, 2, 2⟩).PositionHistory.length : ℤ) = 2 ∧
    (RigidBody.AppendHistory^[3]
        ⟨none, [], ⟨1, 2, 3⟩, ⟨0, 0, 0⟩, ⟨0, 0, 0⟩, 1, 1, 2, false, false,
          3, 12, 1 / 10, 1, 7 / 10, 2, 2⟩).PositionHistory.head? =
      some ⟨1, 2, 3⟩ :=
  spec_C9
    ⟨none, [], ⟨1, 2, 3⟩, ⟨0, 0, 0⟩, ⟨0, 0, 0⟩, 1, 1, 2, false, false,
      3, 12, 1 / 10, 1, 7 / 10, 2, 2⟩ 3
    (by norm_num) (by simp) (by norm_num)

lemma Vec3R.Len_nonneg (v : Vec3R) : 0 ≤ v.Len :=
  Real.sqrt_nonneg _

lemma Vec3R.Len_Mul (v : Vec3R) (c : ℝ) : (v.Mul c).Len = |c| * v.Len := by
  unfold Vec3R.Len Vec3R.Mul
  dsimp only
  rw [show v.x * c * (v.x * c) + v.y * c * (v.y * c) + v.z * c * (v.z * c) =
      (c * c) * (v.x * v.x + v.y * v.y + v.z * v.z) by ring]
  rw [Real.sqrt_mul (mul_self_nonneg c), Real.sqrt_mul_self_eq_abs]

lemma Vec3R.eq_zero_of_Len_eq_zero (v : Vec3R) (h : v.Len = 0) :
    v = Vec3R.zero := by
  unfold Vec3R.Len at h
  have h0 : 0 ≤ v.x * v.x + v.y * v.y + v.z * v.z :=
    add_nonneg (add_nonneg (mul_self_nonneg _) (mul_self_nonneg _)) (mul_self_nonneg _)
  have hs : v.x * v.x + v.y * v.y + v.z * v.z = 0 :=
    le_antisymm (Real.sqrt_eq_zero'.mp h) h0
  have hx : v.x = 0 := by nlinarith [mul_self_nonneg v.x, mul_self_nonneg v.y, mul_self_nonneg v.z]
  have hy : v.y = 0 := by nlinarith [mul_self_nonneg v.x, mul_self_nonneg v.y, mul_self_nonneg v.z]
  have hz : v.z = 0 := by nlinarith [mul_self_nonneg v.x, mul_self_nonneg v.y, mul_self_nonneg v.z]
  cases v
  simp_all [Vec3R.zero]

/-- The final renormalize-and-scale step of `MovementController.Move`
    returns the zero vector or a vector of magnitude exactly `s`. -/
lemma scaled_normalize_mag (mv : Vec3R) (s : ℝ) (hs : 0 ≤ s) :
    (if mv.Len > 0 then mv.Normalize.Mul s else mv) = Vec3R.zero ∨
    (if mv.Len > 0 then mv.Normalize.Mul s else mv).Len = s := by
  split
  · rename_i h
    right
    rw [Vec3R.Normalize, Vec3R.Len_Mul, Vec3R.Len_Mul, abs_of_nonneg hs,
      abs_of_pos (one_div_pos.mpr h), one_div_mul_cancel h.ne', mul_one]
  · rename_i h
    left
    exact Vec3R.eq_zero_of_Len_eq_zero _
      (le_antisymm (not_lt.mp h) (Vec3R.Len_nonneg _))

/-- C8: the movement controller's `Move` returns either the zero vector or a
    vector of magnitude exactly `Speed`, and the vertical input `up` has no
    effect at all when the controller is not flying. -/
theorem spec_C8 (m : MovementController) (forward right up : ℝ)
    (viewVector rightVector : Vec3R) (hs : 0 ≤ m.Speed) :
    ((m.Move forward right up viewVector rightVector = Vec3R.zero) ∨
      (m.Move forward right up viewVector rightVector).Len = m.Speed) ∧
    (m.Flying = false →
      m.Move forward right up viewVector rightVector =
        m.Move forward right 0 viewVector rightVector) := by
  constructor
  · unfold MovementController.Move
    dsimp only
    exact scaled_normalize_mag _ m.Speed hs
  · intro hf
    unfold MovementController.Move
    simp [hf]

/-- C8 witness: with `forward = 1`, `right = 0`, unit orthogonal flat view
    and right vectors, a non-zero `up` and `Flying = false`, the result is
    zero or of magnitude exactly the speed 3, and equals the result with
    `up = 0`. -/
theorem spec_C8_witness :
    ((MovementController.Move ⟨3, 1, false⟩ 1 0 7 ⟨1, 0, 0⟩ ⟨0, 0, 1⟩ = Vec3R.zero) ∨
      (MovementController.Move ⟨3, 1, false⟩ 1 0 7 ⟨1, 0, 0⟩ ⟨0, 0, 1⟩).Len = 3) ∧
    MovementController.Move ⟨3, 1, false⟩ 1 0 7 ⟨1, 0, 0⟩ ⟨0, 0, 1⟩ =
      MovementController.Move ⟨3, 1, false⟩ 1 0 0 ⟨1, 0, 0⟩ ⟨0, 0, 1⟩ := by
  have h := spec_C8 ⟨3, 1, false⟩ 1 0 7 ⟨1, 0, 0⟩ ⟨0, 0, 1⟩ (by norm_num)
  exact ⟨h.1, h.2 rfl⟩

/-- C3 (amended): the vertical sweep's sub-step count is
    `floor(|dy| * 5) + 1` (Go `int` truncation plus one), which agrees with
    the claimed `max(1, ceil(|dy| * 5))` whenever `|dy| * 5` is not a
    positive integer, and exceeds it by exactly one when it is.  Each
    sub-step is the displacement multiplied by `1 / steps` and is committed
    only after the tentative collider clears every wall (see `vertLoop` and
    `wallsPhase`). -/
theorem spec_C3 (dy : ℚ) (hdy : dy ≠ 0) :
    verticalSteps dy = (⌊|dy| * 5⌋).toNat + 1 ∧
    ((¬ ∃ n : ℤ, 0 < n ∧ |dy| * 5 = (n : ℚ)) →
      verticalSteps dy = specVerticalSteps dy) ∧
    (∀ n : ℤ, 0 < n → |dy| * 5 = (n : ℚ) →
      verticalSteps dy = specVerticalSteps dy + 1) := by
  have hx : 0 < |dy| * 5 := by
    have := abs_pos.mpr hdy
    linarith
  have hfl : 0 ≤ ⌊|dy| * 5⌋ := Int.floor_nonneg.mpr hx.le
  refine ⟨rfl, ?_, ?_⟩
  · intro hni
    have hnotint : ¬ (|dy| * 5 = (⌊|dy| * 5⌋ : ℚ)) := by
      intro he
      exact hni ⟨⌊|dy| * 5⌋, by exact_mod_cast he ▸ hx, he⟩
    have hceil : ⌈|dy| * 5⌉ = ⌊|dy| * 5⌋ + 1 := by
      have h1 := Int.ceil_le_floor_add_one (|dy| * 5)
      have h2 : ⌊|dy| * 5⌋ < ⌈|dy| * 5⌉ := by
        by_contra hle
        push_neg at hle
        have hfx := Int.floor_le (|dy| * 5)
        have hcx := Int.le_ceil (|dy| * 5)
        have : |dy| * 5 = (⌊|dy| * 5⌋ : ℚ) := by
          have : ((⌈|dy| * 5⌉ : ℤ) : ℚ) ≤ ((⌊|dy| * 5⌋ : ℤ) : ℚ) := by exact_mod_cast hle
          linarith
        exact hnotint this
      omega
    unfold verticalSteps specVerticalSteps
    rw [hceil]
    omega
  · intro n hn he
    unfold verticalSteps specVerticalSteps
    rw [he, Int.floor_intCast, Int.ceil_intCast]
    omega

/-- C3 witness: for the non-integral multiple `dy = 1/2` (so `|dy|*5 = 5/2`)
    the source's step count and the claimed formula agree. -/
theorem spec_C3_witness :
    verticalSteps (1 / 2) = (⌊|(1 / 2 : ℚ)| * 5⌋).toNat + 1 ∧
    verticalSteps (1 / 2) = specVerticalSteps (1 / 2) :=
  ⟨(spec_C3 (1 / 2) (by norm_num)).1,
   (spec_C3 (1 / 2) (by norm_num)).2.1 (by
      rintro ⟨n, hn, he⟩
      rw [show |(1 / 2 : ℚ)| = 1 / 2 from abs_of_pos (by norm_num)] at he
      rw [show (1 / 2 : ℚ) * 5 = 5 / 2 by norm_num] at he
      have : (2 : ℚ) * n = 5 := by rw [← he]; ring
      have : (2 : ℤ) * n = 5 := by exact_mod_cast this
      omega)⟩

/-- C3 counterexample: at `dy = 1` the code performs `floor(5) + 1 = 6`
    vertical sub-steps, not the claimed `max(1, ceil(5)) = 5`. -/
theorem spec_C3_counterexample :
    verticalSteps 1 = 6 ∧ specVerticalSteps 1 = 5 := by
  unfold verticalSteps specVerticalSteps
  rw [show |(1 : ℚ)| * 5 = ((5 : ℤ) : ℚ) by norm_num]
  rw [Int.floor_intCast, Int.ceil_intCast]
  exact ⟨rfl, rfl⟩

lemma vertLoop_invariants (stepMove : Vec3) (walls : List Box) (n : ℕ) :
    ∀ r : RigidBody,
      (vertLoop stepMove walls n r).Width = r.Width ∧
      (vertLoop stepMove walls n r).Height = r.Height ∧
      (vertLoop stepMove walls n r).Velocity.x = r.Velocity.x ∧
      (vertLoop stepMove walls n r).Velocity.z = r.Velocity.z ∧
      (vertLoop stepMove walls n r).Flying = r.Flying := by
  induction n with
  | zero => intro r; exact ⟨rfl, rfl, rfl, rfl, rfl⟩
  | succ n ih =>
    intro r
    unfold vertLoop
    dsimp only
    split
    · split <;> exact ⟨rfl, rfl, rfl, rfl, rfl⟩
    · exact ih _

lemma horizLoop_invariants (stepMove : Vec3) (walls : List Box) (n : ℕ) :
    ∀ r : RigidBody,
      (horizLoop stepMove walls n r).Width = r.Width ∧
      (horizLoop stepMove walls n r).Height = r.Height ∧
      (horizLoop stepMove walls n r).Velocity = r.Velocity ∧
      (horizLoop stepMove walls n r).Grounded = r.Grounded ∧
      (horizLoop stepMove walls n r).Flying = r.Flying := by
  induction n with
  | zero => intro r; exact ⟨rfl, rfl, rfl, rfl, rfl⟩
  | succ n ih =>
    intro r
    unfold horizLoop
    dsimp only
    split
    · exact ⟨rfl, rfl, rfl, rfl, rfl⟩
    · exact ih _

lemma horizLoop_Position_y (stepMove : Vec3) (hy : stepMove.y = 0)
    (walls : List Box) (n : ℕ) :
    ∀ r : RigidBody,
      (horizLoop stepMove walls n r).Position.y = r.Position.y := by
  induction n with
  | zero => intro r; rfl
  | succ n ih =>
    intro r
    unfold horizLoop
    dsimp only
    split
    · rfl
    · rw [ih]
      dsimp only [Vec3.Add]
      rw [hy, add_zero]

lemma groundPhase_Velocity_xz (r : RigidBody) (ground : Option Box) :
    (groundPhase r ground).Velocity.x = r.Velocity.x ∧
    (groundPhase r ground).Velocity.z = r.Velocity.z := by
  unfold groundPhase
  cases ground with
  | none => exact ⟨rfl, rfl⟩
  | some g =>
    dsimp only
    split
    · split
      · split <;> exact ⟨rfl, rfl⟩
      · split <;> exact ⟨rfl, rfl⟩
    · split <;> exact ⟨rfl, rfl⟩

lemma noWallsPhase_Velocity (r : RigidBody) (movement : Vec3) :
    (noWallsPhase r movement).Velocity = r.Velocity := by
  unfold noWallsPhase RigidBody.UpdateCollider
  dsimp only
  split <;> rfl

lemma ite_vertLoop_Velocity_x (c : Prop) [inst : Decidable c] (sm : Vec3)
    (walls : List Box) (k : ℕ) (r : RigidBody) :
    (if c then vertLoop sm walls k r else r).Velocity.x = r.Velocity.x := by
  split
  · exact (vertLoop_invariants sm walls k r).2.2.1
  · rfl

lemma ite_vertLoop_Velocity_z (c : Prop) [inst : Decidable c] (sm : Vec3)
    (walls : List Box) (k : ℕ) (r : RigidBody) :
    (if c then vertLoop sm walls k r else r).Velocity.z = r.Velocity.z := by
  split
  · exact (vertLoop_invariants sm walls k r).2.2.2.1
  · rfl

lemma ite_horizLoop_Velocity (c : Prop) [inst : Decidable c] (sm : Vec3)
    (walls : List Box) (k : ℕ) (r : RigidBody) :
    (if c then horizLoop sm walls k r else r).Velocity = r.Velocity := by
  split
  · exact (horizLoop_invariants sm walls k r).2.2.1
  · rfl

lemma wallsPhase_Velocity_xz (r : RigidBody) (movement : Vec3) (walls : List Box) :
    (wallsPhase r movement walls).Velocity.x = r.Velocity.x ∧
    (wallsPhase r movement walls).Velocity.z = r.Velocity.z := by
  unfold wallsPhase RigidBody.UpdateCollider
  dsimp only
  rw [ite_horizLoop_Velocity]
  rw [ite_vertLoop_Velocity_x, ite_vertLoop_Velocity_z]
  exact ⟨rfl, rfl⟩

/-- C10: `Move` never changes the horizontal velocity components: every
    write to `Velocity` inside it replaces only the Y component. -/
theorem spec_C10 (r : RigidBody) (movement : Vec3) (ground ceiling : Option Box)
    (walls : List Box) :
    (r.Move movement ground ceiling walls).Velocity.x = r.Velocity.x ∧
    (r.Move movement ground ceiling walls).Velocity.z = r.Velocity.z := by
  unfold RigidBody.Move
  dsimp only
  have hg := groundPhase_Velocity_xz r ground
  split
  · exact ⟨(wallsPhase_Velocity_xz _ _ walls).1.trans hg.1,
      (wallsPhase_Velocity_xz _ _ walls).2.trans hg.2⟩
  · exact ⟨(congrArg Vec3.x (noWallsPhase_Velocity _ _)).trans hg.1,
      (congrArg Vec3.z (noWallsPhase_Velocity _ _)).trans hg.2⟩

lemma groundPhase_none (r : RigidBody) :
    groundPhase r none = { r with Grounded := false } := rfl

lemma vertLoop_safe (stepMove : Vec3) (walls : List Box) (n : ℕ) :
    ∀ r : RigidBody,
      anyWallHit (colliderAt r.Width r.Height r.Position) walls = false →
      anyWallHit (colliderAt (vertLoop stepMove walls n r).Width
        (vertLoop stepMove walls n r).Height
        (vertLoop stepMove walls n r).Position) walls = false := by
  induction n with
  | zero => intro r h; exact h
  | succ n ih =>
    intro r h
    unfold vertLoop
    dsimp only
    split
    · split <;> exact h
    · rename_i hnohit
      exact ih _ (by simpa using hnohit)

lemma horizLoop_safe (stepMove : Vec3) (walls : List Box) (n : ℕ) :
    ∀ r : RigidBody,
      anyWallHit (colliderAt r.Width r.Height r.Position) walls = false →
      anyWallHit (colliderAt (horizLoop stepMove walls n r).Width
        (horizLoop stepMove walls n r).Height
        (horizLoop stepMove walls n r).Position) walls = false := by
  induction n with
  | zero => intro r h; exact h
  | succ n ih =>
    intro r h
    unfold horizLoop
    dsimp only
    split
    · exact h
    · rename_i hnohit
      exact ih _ (by simpa using hnohit)

lemma ite_vertLoop_safe (c : Prop) [inst : Decidable c] (sm : Vec3)
    (walls : List Box) (k : ℕ) (r : RigidBody)
    (h : anyWallHit (colliderAt r.Width r.Height r.Position) walls = false) :
    anyWallHit (colliderAt (if c then vertLoop sm walls k r else r).Width
      (if c then vertLoop sm walls k r else r).Height
      (if c then vertLoop sm walls k r else r).Position) walls = false := by
  split
  · exact vertLoop_safe sm walls k r h
  · exact h

lemma ite_horizLoop_safe (c : Prop) [inst : Decidable c] (sm : Vec3)
    (walls : List Box) (k : ℕ) (r : RigidBody)
    (h : anyWallHit (colliderAt r.Width r.Height r.Position) walls = false) :
    anyWallHit (colliderAt (if c then horizLoop sm walls k r else r).Width
      (if c then horizLoop sm walls k r else r).Height
      (if c then horizLoop sm walls k r else r).Position) walls = false := by
  split
  · exact horizLoop_safe sm walls k r h
  · exact h

lemma wallsPhase_safe (r : RigidBody) (movement : Vec3) (walls : List Box)
    (h : anyWallHit (colliderAt r.Width r.Height r.Position) walls = false) :
    anyWallHit (colliderAt (wallsPhase r movement walls).Width
      (wallsPhase r movement walls).Height
      (wallsPhase r movement walls).Position) walls = false := by
  unfold wallsPhase RigidBody.UpdateCollider
  dsimp only
  exact ite_horizLoop_safe _ _ walls 4 _ (ite_vertLoop_safe _ _ walls _ _ h)

lemma wallsPhase_Collider (r : RigidBody) (movement : Vec3) (walls : List Box) :
    (wallsPhase r movement walls).Collider =
      some (colliderAt (wallsPhase r movement walls).Width
        (wallsPhase r movement walls).Height
        (wallsPhase r movement walls).Position) := by
  unfold wallsPhase RigidBody.UpdateCollider
  dsimp only

lemma horizLoop_steps (stepMove : Vec3) (walls : List Box) (n : ℕ) :
    ∀ r : RigidBody, ∃ k : ℕ, k ≤ n ∧
      (horizLoop stepMove walls n r).Position =
        r.Position.Add (stepMove.Mul (k : ℚ)) := by
  induction n with
  | zero =>
    intro r
    refine ⟨0, le_refl 0, ?_⟩
    show r.Position = r.Position.Add (stepMove.Mul ((0 : ℕ) : ℚ))
    simp [Vec3.Add, Vec3.Mul]
  | succ n ih =>
    intro r
    unfold horizLoop
    dsimp only
    split
    · refine ⟨0, Nat.zero_le _, ?_⟩
      simp [Vec3.Add, Vec3.Mul]
    · obtain ⟨k, hk, hpos⟩ := ih _
      refine ⟨k + 1, by omega, ?_⟩
      rw [hpos]
      simp only [Vec3.Add, Vec3.Mul, Vec3.mk.injEq]
      refine ⟨?_, ?_, ?_⟩ <;> push_cast <;> ring

/-- C4 (amended): with walls supplied and a collider present, the horizontal
    sweep always divides the displacement into exactly 4 equal sub-steps and
    commits some prefix of them, stopping at the first collision; and when no
    ground box is supplied (the upward ground snap is not wall-checked) a
    body whose position-derived collider intersects no wall ends the call
    with its rebuilt collider intersecting no wall. -/
theorem spec_C4 (r : RigidBody) (movement : Vec3) (ceiling : Option Box)
    (walls : List Box)
    (hc : r.Collider.isSome = true)
    (hw : walls ≠ [])
    (hsafe : anyWallHit (colliderAt r.Width r.Height r.Position) walls = false) :
    (∀ sm : Vec3, ∀ r0 : RigidBody, ∃ k : ℕ, k ≤ 4 ∧
        (horizLoop sm walls 4 r0).Position = r0.Position.Add (sm.Mul (k : ℚ))) ∧
    anyWallHit (colliderAt (r.Move movement none ceiling walls).Width
        (r.Move movement none ceiling walls).Height
        (r.Move movement none ceiling walls).Position) walls = false ∧
    (r.Move movement none ceiling walls).Collider =
      some (colliderAt (r.Move movement none ceiling walls).Width
        (r.Move movement none ceiling walls).Height
        (r.Move movement none ceiling walls).Position) := by
  refine ⟨fun sm r0 => horizLoop_steps sm walls 4 r0, ?_, ?_⟩ <;>
  · unfold RigidBody.Move
    dsimp only
    rw [groundPhase_none, if_pos (⟨hc, hw⟩ :
      ({ r with Grounded := false } : RigidBody).Collider.isSome = true ∧ walls ≠ [])]
    first
      | exact wallsPhase_safe _ _ walls hsafe
      | exact wallsPhase_Collider _ _ walls

/-- C4 witness: a concrete body standing clear of a wall, moved with no
    ground supplied, ends the call with its rebuilt collider clear of the
    wall, and the horizontal sweep commits a prefix of its 4 sub-steps. -/
theorem spec_C4_witness :
    (∀ sm : Vec3, ∀ r0 : RigidBody, ∃ k : ℕ, k ≤ 4 ∧
        (horizLoop sm [⟨⟨-(2/5), 3/2, -(2/5)⟩, ⟨2/5, 3, 2/5⟩⟩] 4 r0).Position =
          r0.Position.Add (sm.Mul (k : ℚ))) ∧
    anyWallHit (colliderAt
        (RigidBody.Move
          ⟨some (colliderAt 1 1 ⟨0, 1, 0⟩), [], ⟨0, 1, 0⟩, ⟨0, 0, 0⟩, ⟨0, 0, 0⟩,
            1, 1, 1, false, false, 3, 12, 1 / 10, 1, 7 / 10, 2, 20⟩
          ⟨0, 0, 0⟩ none none [⟨⟨-(2/5), 3/2, -(2/5)⟩, ⟨2/5, 3, 2/5⟩⟩]).Width
        (RigidBody.Move
          ⟨some (colliderAt 1 1 ⟨0, 1, 0⟩), [], ⟨0, 1, 0⟩, ⟨0, 0, 0⟩, ⟨0, 0, 0⟩,
            1, 1, 1, false, false, 3, 12, 1 / 10, 1, 7 / 10, 2, 20⟩
          ⟨0, 0, 0⟩ none none [⟨⟨-(2/5), 3/2, -(2/5)⟩, ⟨2/5, 3, 2/5⟩⟩]).Height
        (RigidBody.Move
          ⟨some (colliderAt 1 1 ⟨0, 1, 0⟩), [], ⟨0, 1, 0⟩, ⟨0, 0, 0⟩, ⟨0, 0, 0⟩,
            1, 1, 1, false, false, 3, 12, 1 / 10, 1, 7 / 10, 2, 20⟩
          ⟨0, 0, 0⟩ none none [⟨⟨-(2/5), 3/2, -(2/5)⟩, ⟨2/5, 3, 2/5⟩⟩]).Position)
      [⟨⟨-(2/5), 3/2, -(2/5)⟩, ⟨2/5, 3, 2/5⟩⟩] = false ∧
    (RigidBody.Move
        ⟨some (colliderAt 1 1 ⟨0, 1, 0⟩), [], ⟨0, 1, 0⟩, ⟨0, 0, 0⟩, ⟨0, 0, 0⟩,
          1, 1, 1, false, false, 3, 12, 1 / 10, 1, 7 / 10, 2, 20⟩
        ⟨0, 0, 0⟩ none none [⟨⟨-(2/5), 3/2, -(2/5)⟩, ⟨2/5, 3, 2/5⟩⟩]).Collider =
      some (colliderAt
        (RigidBody.Move
          ⟨some (colliderAt 1 1 ⟨0, 1, 0⟩), [], ⟨0, 1, 0⟩, ⟨0, 0, 0⟩, ⟨0, 0, 0⟩,
            1, 1, 1, false, false, 3, 12, 1 / 10, 1, 7 / 10, 2, 20⟩
          ⟨0, 0, 0⟩ none none [⟨⟨-(2/5), 3/2, -(2/5)⟩, ⟨2/5, 3, 2/5⟩⟩]).Width
        (RigidBody.Move
          ⟨some (colliderAt 1 1 ⟨0, 1, 0⟩), [], ⟨0, 1, 0⟩, ⟨0, 0, 0⟩, ⟨0, 0, 0⟩,
            1, 1, 1, false, false, 3, 12, 1 / 10, 1, 7 / 10, 2, 20⟩
          ⟨0, 0, 0⟩ none none [⟨⟨-(2/5), 3/2, -(2/5)⟩, ⟨2/5, 3, 2/5⟩⟩]).Height
        (RigidBody.Move
          ⟨some (colliderAt 1 1 ⟨0, 1, 0⟩), [], ⟨0, 1, 0⟩, ⟨0, 0, 0⟩, ⟨0, 0, 0⟩,
            1, 1, 1, false, false, 3, 12, 1 / 10, 1, 7 / 10, 2, 20⟩
          ⟨0, 0, 0⟩ none none [⟨⟨-(2/5), 3/2, -(2/5)⟩, ⟨2/5, 3, 2/5⟩⟩]).Position) :=
  spec_C4
    ⟨some (colliderAt 1 1 ⟨0, 1, 0⟩), [], ⟨0, 1, 0⟩, ⟨0, 0, 0⟩, ⟨0, 0, 0⟩,
      1, 1, 1, false, false, 3, 12, 1 / 10, 1, 7 / 10, 2, 20⟩
    ⟨0, 0, 0⟩ none [⟨⟨-(2/5), 3/2, -(2/5)⟩, ⟨2/5, 3, 2/5⟩⟩] rfl (by simp)
    (by norm_num [anyWallHit, colliderAt, Box.Intersection, Box.separated,
      Vec3.Sub, Vec3.Add])

/-- C4 counterexample: with a ground box supplied, the unchecked upward
    ground snap pushes a body that started clear of every wall into a wall,
    so the call ends with the rebuilt collider intersecting a wall even
    though no sub-step ever committed a colliding position. -/
theorem spec_C4_counterexample :
    anyWallHit (colliderAt 1 1 ⟨0, 1, 0⟩)
      [⟨⟨-(2/5), 3/2, -(2/5)⟩, ⟨2/5, 3, 2/5⟩⟩] = false ∧
    (RigidBody.Move
        ⟨some (colliderAt 1 1 ⟨0, 1, 0⟩), [], ⟨0, 1, 0⟩, ⟨0, 0, 0⟩, ⟨0, 0, 0⟩,
          1, 1, 1, false, false, 3, 12, 1 / 10, 1, 7 / 10, 2, 20⟩
        ⟨0, 0, 0⟩ (some ⟨⟨-5, -1, -5⟩, ⟨5, 1 / 2, 5⟩⟩) none
        [⟨⟨-(2/5), 3/2, -(2/5)⟩, ⟨2/5, 3, 2/5⟩⟩]).Collider =
      some (colliderAt 1 1 ⟨0, 17 / 10, 0⟩) ∧
    anyWallHit (colliderAt 1 1 ⟨0, 17 / 10, 0⟩)
      [⟨⟨-(2/5), 3/2, -(2/5)⟩, ⟨2/5, 3, 2/5⟩⟩] = true := by
  refine ⟨?_, ?_, ?_⟩
  · norm_num [anyWallHit, colliderAt, Box.Intersection, Box.separated,
      Vec3.Sub, Vec3.Add]
  · norm_num [RigidBody.Move, groundPhase, wallsPhase, RigidBody.UpdateCollider,
      Box.IntersectionY, colliderAt, Vec3.Sub, Vec3.Add, Vec3.Mul, Vec3.lenSq,
      minf, anyWallHit, Box.Intersection, Box.separated]
  · norm_num [anyWallHit, colliderAt, Box.Intersection, Box.separated,
      Vec3.Sub, Vec3.Add, minf, signF]

lemma movement_scaling_y {p q : Prop} [hp : Decidable p] [hq : Decidable q]
    {c1 c2 : ℚ} (m : Vec3) (hmy : m.y = 0) :
    (if p then (if q then m.Mul c1 else m).Mul c2
      else (if q then m.Mul c1 else m)).y = 0 := by
  split <;> [split; split] <;> simp [Vec3.Mul, hmy]

lemma groundPhase_snap_facts (r : RigidBody) (g : Box) (d : ℚ)
    (hcol : r.Collider = some (colliderAt r.Width r.Height r.Position))
    (hI : Box.IntersectionY g (colliderAt r.Width r.Height r.Position) = (true, d))
    (hd : d > 1 / 1000) :
    (groundPhase r (some g)).Grounded = true ∧
    (groundPhase r (some g)).Width = r.Width ∧
    (groundPhase r (some g)).Height = r.Height ∧
    (groundPhase r (some g)).Flying = r.Flying ∧
    (groundPhase r (some g)).Position.y = r.Position.y + (d + 1 / 5) ∧
    (groundPhase r (some g)).Collider =
      some (colliderAt r.Width r.Height (groundPhase r (some g)).Position) ∧
    (r.Grounded = false → (groundPhase r (some g)).Velocity.y = 0) ∧
    (r.Grounded = true → (groundPhase r (some g)).Velocity.y = r.Velocity.y) := by
  unfold groundPhase RigidBody.UpdateCollider
  rw [show (1 / 1000 : ℚ) = 1000⁻¹ from one_div 1000] at hd
  by_cases hg : r.Grounded = true
  · simp [hg, hcol, hI, hd, Vec3.Add]
  · simp only [Bool.not_eq_true] at hg
    simp [hg, hcol, hI, hd, Vec3.Add]

lemma wallsPhase_grounded_flat (r : RigidBody) (movement : Vec3) (walls : List Box)
    (hg : r.Grounded = true) (hmy : movement.y = 0) :
    (wallsPhase r movement walls).Grounded = true ∧
    (wallsPhase r movement walls).Position.y = r.Position.y ∧
    (wallsPhase r movement walls).Width = r.Width ∧
    (wallsPhase r movement walls).Height = r.Height := by
  unfold wallsPhase RigidBody.UpdateCollider
  dsimp only
  rw [hg, hmy]
  simp only [Bool.not_true, Vec3.lenSq, ite_self]
  norm_num
  split
  · have hsy : (Vec3.Mul ⟨movement.x, 0, movement.z⟩ (1 / 4)).y = 0 := by
      simp [Vec3.Mul]
    refine ⟨?_, ?_, ?_, ?_⟩
    · rw [(horizLoop_invariants _ walls 4 _).2.2.2.1, hg]
    · exact horizLoop_Position_y _ hsy walls 4 _
    · exact (horizLoop_invariants _ walls 4 _).1
    · exact (horizLoop_invariants _ walls 4 _).2.1
  · exact ⟨hg, rfl, rfl, rfl⟩

lemma noWallsPhase_facts (r : RigidBody) (movement : Vec3) (hmy : movement.y = 0) :
    (noWallsPhase r movement).Grounded = r.Grounded ∧
    (noWallsPhase r movement).Width = r.Width ∧
    (noWallsPhase r movement).Height = r.Height ∧
    (noWallsPhase r movement).Collider =
      some (colliderAt r.Width r.Height (noWallsPhase r movement).Position) ∧
    (r.Flying = true → (noWallsPhase r movement).Position.y = r.Position.y) ∧
    (r.Flying = false →
      (noWallsPhase r movement).Position.y = r.Position.y + r.Velocity.y) := by
  unfold noWallsPhase RigidBody.UpdateCollider
  by_cases hf : r.Flying = true
  · simp [hf, Vec3.Add, hmy]
  · simp only [Bool.not_eq_true] at hf
    simp [hf, Vec3.Add, hmy]

/-- C2 (amended): when a body's position-derived collider penetrates the top
    of a supplied ground box by minimal Y overlap `d > 0.001`, a single
    `Move` call whose movement vector has zero Y component leaves the body
    grounded with its rebuilt collider bottom at or above the ground top
    plus the 0.2 margin, provided the body was airborne before the call or
    has non-negative vertical velocity (the fallback path adds the vertical
    velocity of a previously grounded body after the snap). -/
theorem spec_C2 (r : RigidBody) (movement : Vec3) (g : Box)
    (ceiling : Option Box) (walls : List Box) (d : ℚ)
    (hcol : r.Collider = some (colliderAt r.Width r.Height r.Position))
    (hI : Box.IntersectionY g (colliderAt r.Width r.Height r.Position) = (true, d))
    (hd : d > 1 / 1000)
    (hbot : d = g.Max.y - (colliderAt r.Width r.Height r.Position).Min.y)
    (hmy : movement.y = 0)
    (hvy : r.Grounded = false ∨ 0 ≤ r.Velocity.y) :
    (r.Move movement (some g) ceiling walls).Grounded = true ∧
    ∃ c' : Box, (r.Move movement (some g) ceiling walls).Collider = some c' ∧
      g.Max.y + 1 / 5 ≤ c'.Min.y := by
  obtain ⟨hG, hW, hH, hFly, hPy, hCol, hVy0, hVyg⟩ :=
    groundPhase_snap_facts r g d hcol hI hd
  have hbot' : d = g.Max.y - (r.Position.y - r.Height) := by
    rw [hbot]; rfl
  have hVy : 0 ≤ (groundPhase r (some g)).Velocity.y := by
    rcases hvy with hv | hv
    · rw [hVy0 hv]
    · rcases Bool.eq_false_or_eq_true r.Grounded with hg | hg
      · rw [hVyg hg]; exact hv
      · rw [hVy0 hg]
  unfold RigidBody.Move
  dsimp only
  split
  · -- walls supplied
    obtain ⟨wG, wPy, wW, wH⟩ :=
      wallsPhase_grounded_flat (groundPhase r (some g))
        (if (groundPhase r (some g)).Flying = true then
          (if (!(groundPhase r (some g)).Grounded) = true ∧
              (!(groundPhase r (some g)).Flying) = true then
            movement.Mul (groundPhase r (some g)).AirMovementSuppression
          else movement).Mul (groundPhase r (some g)).FlyingSpeedMultipier
        else
          (if (!(groundPhase r (some g)).Grounded) = true ∧
              (!(groundPhase r (some g)).Flying) = true then
            movement.Mul (groundPhase r (some g)).AirMovementSuppression
          else movement))
        walls hG (movement_scaling_y movement hmy)
    refine ⟨wG, ⟨_, wallsPhase_Collider _ _ walls, ?_⟩⟩
    rw [show ∀ w h : ℚ, ∀ p : Vec3, (colliderAt w h p).Min.y = p.y - h
      from fun w h p => rfl]
    rw [wPy, wH, hPy, hH]
    linarith [hbot']
  · -- no walls (or no collider)
    obtain ⟨nG, nW, nH, nCol, nFlyT, nFlyF⟩ :=
      noWallsPhase_facts (groundPhase r (some g))
        (if (groundPhase r (some g)).Flying = true then
          (if (!(groundPhase r (some g)).Grounded) = true ∧
              (!(groundPhase r (some g)).Flying) = true then
            movement.Mul (groundPhase r (some g)).AirMovementSuppression
          else movement).Mul (groundPhase r (some g)).FlyingSpeedMultipier
        else
          (if (!(groundPhase r (some g)).Grounded) = true ∧
              (!(groundPhase r (some g)).Flying) = true then
            movement.Mul (groundPhase r (some g)).AirMovementSuppression
          else movement))
        (movement_scaling_y movement hmy)
    refine ⟨nG.trans hG, ⟨_, nCol, ?_⟩⟩
    rw [show ∀ w h : ℚ, ∀ p : Vec3, (colliderAt w h p).Min.y = p.y - h
      from fun w h p => rfl]
    rcases Bool.eq_false_or_eq_true (groundPhase r (some g)).Flying with hf | hf
    · rw [nFlyT hf, hPy, hH]
      linarith [hbot']
    · rw [nFlyF hf, hPy, hH]
      linarith [hbot', hVy]

/-- C2 witness: a falling body (airborne, zero velocity) penetrating a
    ground top by depth 1/2 is snapped so its rebuilt collider bottom sits
    exactly at the ground top plus the 0.2 margin, grounded. -/
theorem spec_C2_witness :
    (RigidBody.Move
        ⟨some (colliderAt 1 1 ⟨0, 1, 0⟩), [], ⟨0, 1, 0⟩, ⟨0, 0, 0⟩, ⟨0, 0, 0⟩,
          1, 1, 1, false, false, 3, 12, 1 / 10, 1, 7 / 10, 2, 20⟩
        ⟨0, 0, 0⟩ (some ⟨⟨-5, -1, -5⟩, ⟨5, 1 / 2, 5⟩⟩) none []).Grounded = true ∧
    ∃ c' : Box,
      (RigidBody.Move
          ⟨some (colliderAt 1 1 ⟨0, 1, 0⟩), [], ⟨0, 1, 0⟩, ⟨0, 0, 0⟩, ⟨0, 0, 0⟩,
            1, 1, 1, false, false, 3, 12, 1 / 10, 1, 7 / 10, 2, 20⟩
          ⟨0, 0, 0⟩ (some ⟨⟨-5, -1, -5⟩, ⟨5, 1 / 2, 5⟩⟩) none []).Collider = some c' ∧
      (⟨⟨-5, -1, -5⟩, ⟨5, 1 / 2, 5⟩⟩ : Box).Max.y + 1 / 5 ≤ c'.Min.y :=
  spec_C2
    ⟨some (colliderAt 1 1 ⟨0, 1, 0⟩), [], ⟨0, 1, 0⟩, ⟨0, 0, 0⟩, ⟨0, 0, 0⟩,
      1, 1, 1, false, false, 3, 12, 1 / 10, 1, 7 / 10, 2, 20⟩
    ⟨0, 0, 0⟩ ⟨⟨-5, -1, -5⟩, ⟨5, 1 / 2, 5⟩⟩ none [] (1 / 2)
    rfl
    (by norm_num [Box.IntersectionY, colliderAt, Vec3.Sub, Vec3.Add, minf])
    (by norm_num)
    (by norm_num [colliderAt, Vec3.Sub])
    rfl
    (Or.inl rfl)

/-- C2 counterexample: the same penetrating body moved with a downward
    movement vector ends the very same `Move` call with its collider bottom
    strictly below the ground top plus the 0.2 margin — the claim as stated
    (for every movement vector) is false. -/
theorem spec_C2_counterexample :
    Box.IntersectionY ⟨⟨-5, -1, -5⟩, ⟨5, 1 / 2, 5⟩⟩ (colliderAt 1 1 ⟨0, 1, 0⟩) =
      (true, 1 / 2) ∧
    ((1 : ℚ) / 2 > 1 / 1000) ∧
    (RigidBody.Move
        ⟨some (colliderAt 1 1 ⟨0, 1, 0⟩), [], ⟨0, 1, 0⟩, ⟨0, 0, 0⟩, ⟨0, 0, 0⟩,
          1, 1, 1, false, false, 3, 12, 1 / 10, 1, 7 / 10, 2, 20⟩
        ⟨0, -1, 0⟩ (some ⟨⟨-5, -1, -5⟩, ⟨5, 1 / 2, 5⟩⟩) none []).Grounded = true ∧
    (RigidBody.Move
        ⟨some (colliderAt 1 1 ⟨0, 1, 0⟩), [], ⟨0, 1, 0⟩, ⟨0, 0, 0⟩, ⟨0, 0, 0⟩,
          1, 1, 1, false, false, 3, 12, 1 / 10, 1, 7 / 10, 2, 20⟩
        ⟨0, -1, 0⟩ (some ⟨⟨-5, -1, -5⟩, ⟨5, 1 / 2, 5⟩⟩) none []).Collider =
      some (colliderAt 1 1 ⟨0, 7 / 10, 0⟩) ∧
    (colliderAt 1 1 ⟨0, 7 / 10, 0⟩).Min.y <
      (⟨⟨-5, -1, -5⟩, ⟨5, 1 / 2, 5⟩⟩ : Box).Max.y + 1 / 5 := by
  refine ⟨?_, by norm_num, ?_, ?_, by norm_num [colliderAt, Vec3.Sub]⟩
  · norm_num [Box.IntersectionY, colliderAt, Vec3.Sub, Vec3.Add, minf]
  · norm_num [RigidBody.Move, groundPhase, noWallsPhase, RigidBody.UpdateCollider,
      Box.IntersectionY, colliderAt, Vec3.Sub, Vec3.Add, Vec3.Mul, minf]
  · norm_num [RigidBody.Move, groundPhase, noWallsPhase, RigidBody.UpdateCollider,
      Box.IntersectionY, colliderAt, Vec3.Sub, Vec3.Add, Vec3.Mul, minf]

end GEngine
